import Mathlib

/-!
Verification of the lckl pattern-based log formatter
(src/lckl/log.h, src/lckl/log.cpp).

Modelling conventions:
- std::string is modelled as List Char.
- The two loops of LogFormatter::init (the outer character scan and the
  inner directive scan) are modelled as structurally recursive functions
  on an explicit fuel argument. Both source loops advance their index by
  at least one on every iteration, so a fuel of pattern-length + 1 always
  outruns the loop; the fuel-exhaustion branch coincides with the normal
  loop-exit branch, so the functions compute exactly what the loops do.
- strftime together with localtime_r (C library calls made by
  DateFormatItem::format) are modelled as an opaque parameter
  strf : List Char → Nat → List Char mapping the stored format string and
  the event timestamp to the rendered text.
- Logger::get_name in log.h is a stub with an empty body; per the spec the
  logger is an external collaborator that only exposes its name, so the
  name read through event->get_logger()->get_name() is modelled as the
  event field loggerName.
- The C++ enum LogLevel::Level is modelled by its underlying integer value
  so that values outside the declared ordinals can be passed, which the
  switch default branch in LogLevel::to_string explicitly caters for.
-/

namespace lckl

/-- Model of C isalpha restricted to ASCII letters, as applied by
LogFormatter::init to pattern characters. -/
def isalpha (c : Char) : Prop :=
  ('a' ≤ c ∧ c ≤ 'z') ∨ ('A' ≤ c ∧ c ≤ 'Z')

instance (c : Char) : Decidable (isalpha c) := by
  unfold isalpha
  infer_instance

/-- Reading m_pattern[n]; total with a null default, only ever used under
the same bounds guards as the source loops. -/
def charAt (p : List Char) (n : Nat) : Char :=
  p.getD n (Char.ofNat 0)

/-- LogLevel::to_string, log.cpp lines 9-27: a switch over the six declared
ordinals, every declared case and the default both yielding UNKNOWN text
for unexpected values. -/
def LogLevel.to_string (level : Int) : List Char :=
  if level = 0 then ("UNKNOWN".toList)
  else if level = 1 then ("DEBUG".toList)
  else if level = 2 then ("INFO".toList)
  else if level = 3 then ("WARN".toList)
  else if level = 4 then ("ERROR".toList)
  else if level = 5 then ("FATAL".toList)
  else ("UNKNOWN".toList)

/-- LogLevel::from_string, log.cpp lines 29-47: an exact-match chain over
the lowercase spellings then the uppercase spellings, anything else
falling through to UNKNOWN (ordinal 0). -/
def LogLevel.from_string (str : List Char) : Int :=
  if str = ("debug".toList) then 1
  else if str = ("info".toList) then 2
  else if str = ("warn".toList) then 3
  else if str = ("error".toList) then 4
  else if str = ("fatal".toList) then 5
  else if str = ("DEBUG".toList) then 1
  else if str = ("INFO".toList) then 2
  else if str = ("WARN".toList) then 3
  else if str = ("ERROR".toList) then 4
  else if str = ("FATAL".toList) then 5
  else 0

/-- LogEvent, log.h lines 49-145: the per-call value object. content models
the accumulated m_ss message stream; loggerName models the name read
through the owning logger (see the file header note). -/
structure LogEvent where
  file : List Char
  line : Int
  elapse : Nat
  threadid : Nat
  fiberid : Nat
  time : Nat
  threadname : List Char
  content : List Char
  loggerName : List Char
  level : Int

/-- The closed set of compiled format items, one constructor per
FormatItem subclass in log.cpp lines 109-225. DateItem stores the m_format
field after the constructor's empty-argument defaulting; StringItem covers
both literal text and the error placeholder texts, exactly as
StringFormatItem does in the source. -/
inductive FormatItem where
  | MessageItem : FormatItem
  | LevelItem : FormatItem
  | ElapseItem : FormatItem
  | NameItem : FormatItem
  | ThreadidItem : FormatItem
  | FiberidItem : FormatItem
  | ThreadnameItem : FormatItem
  | DateItem : List Char → FormatItem
  | FilenameItem : FormatItem
  | LineItem : FormatItem
  | NewlineItem : FormatItem
  | StringItem : List Char → FormatItem
  | TabItem : FormatItem
deriving DecidableEq

/-- The default strftime pattern of DateFormatItem, log.cpp line 167. -/
def defaultDateFormat : List Char := "%Y-%m-%d %H:%M:%S".toList

/-- The s_format_items table of log.cpp lines 311-328: directive name to
constructor closure; the d entry reproduces the DateFormatItem constructor
including its empty-format defaulting (log.cpp lines 167-172). -/
def s_format_items (str : List Char) : Option (List Char → FormatItem) :=
  if str = ['m'] then some (fun _ => FormatItem.MessageItem)
  else if str = ['p'] then some (fun _ => FormatItem.LevelItem)
  else if str = ['r'] then some (fun _ => FormatItem.ElapseItem)
  else if str = ['c'] then some (fun _ => FormatItem.NameItem)
  else if str = ['t'] then some (fun _ => FormatItem.ThreadidItem)
  else if str = ['n'] then some (fun _ => FormatItem.NewlineItem)
  else if str = ['d'] then
    some (fun fmt => FormatItem.DateItem (if fmt = [] then defaultDateFormat else fmt))
  else if str = ['f'] then some (fun _ => FormatItem.FilenameItem)
  else if str = ['l'] then some (fun _ => FormatItem.LineItem)
  else if str = ['T'] then some (fun _ => FormatItem.TabItem)
  else if str = ['F'] then some (fun _ => FormatItem.FiberidItem)
  else if str = ['N'] then some (fun _ => FormatItem.ThreadnameItem)
  else none

/-- The placeholder text appended for an unknown directive name,
log.cpp line 336. -/
def errorText (str : List Char) : List Char :=
  ("<<error_format %".toList) ++ str ++ (">>".toList)

/-- The inner while loop of LogFormatter::init, log.cpp lines 252-287,
scanning from position n after a directive-opening percent at position i.
State: n, fmt_status, fmt_begin, str, fmt. Returns (str, fmt, fmt_status,
n) as left by the loop. Each non-breaking iteration increments n, so fuel
p.length + 1 is always sufficient; the fuel-0 branch returns the current
state exactly like the loop-condition exit. Note the source's first break
condition compares the character against a closing brace twice (a
duplicated operand, lines 255-256), reproduced verbatim here. -/
def scanLoop (p : List Char) (i : Nat) :
    Nat → Nat → Nat → Nat → List Char → List Char →
    List Char × List Char × Nat × Nat
  | 0, n, fmtStatus, _, str, fmt => (str, fmt, fmtStatus, n)
  | fuel+1, n, fmtStatus, fmtBegin, str, fmt =>
    if n < p.length then
      let c := charAt p n
      if fmtStatus = 0 ∧ ¬ isalpha c ∧ c ≠ '\x7d' ∧ c ≠ '\x7d' then
        (((p.drop (i+1)).take (n-i-1)), fmt, fmtStatus, n)
      else if fmtStatus = 0 ∧ c = '\x7b' then
        scanLoop p i fuel (n+1) 1 n ((p.drop (i+1)).take (n-i-1)) fmt
      else if fmtStatus = 1 ∧ c = '\x7d' then
        (str, ((p.drop (fmtBegin+1)).take (n-fmtBegin-1)), 0, n+1)
      else
        let str2 := if n+1 = p.length ∧ str = [] then p.drop (i+1) else str
        scanLoop p i fuel (n+1) fmtStatus fmtBegin str2 fmt
    else (str, fmt, fmtStatus, n)

/-- One parsed segment of the pattern: (text, format-argument, type) as in
the vector of tuples built by LogFormatter::init; type 0 is literal text,
type 1 is a directive name. -/
abbrev Segment := List Char × List Char × Nat

/-- The outer for loop of LogFormatter::init, log.cpp lines 232-309,
including the trailing literal flush after the loop. State: i, the pending
literal nstr, the segment vector and the error flag. Every iteration
advances i by at least one (in the directive case the next index is the n
returned by the inner scan, which is at least i+1), so fuel p.length + 1
is always sufficient; the fuel-0 branch performs the same trailing flush
as the loop exit. -/
def initLoop (p : List Char) :
    Nat → Nat → List Char → List Segment → Bool → List Segment × Bool
  | 0, _, nstr, vec, err =>
    (if nstr ≠ [] then vec ++ [(nstr, [], 0)] else vec, err)
  | fuel+1, i, nstr, vec, err =>
    if i < p.length then
      let c := charAt p i
      if c ≠ '%' then
        initLoop p fuel (i+1) (nstr ++ [c]) vec err
      else if i+1 < p.length ∧ charAt p (i+1) = '%' then
        initLoop p fuel (i+1) (nstr ++ ['%']) vec err
      else
        let r := scanLoop p i (p.length+1) (i+1) 0 0 [] []
        if r.2.2.1 = 0 then
          let vec1 := if nstr ≠ [] then vec ++ [(nstr, [], 0)] else vec
          initLoop p fuel ((r.2.2.2 - 1) + 1) [] (vec1 ++ [(r.1, r.2.1, 1)]) err
        else
          initLoop p fuel (i+1) nstr (vec ++ [("<<pattern_error>>".toList, r.2.1, 0)]) true
    else (if nstr ≠ [] then vec ++ [(nstr, [], 0)] else vec, err)

/-- The tokenizing phase of LogFormatter::init: the outer loop run from
index 0 on empty state. -/
def tokenizePattern (p : List Char) : List Segment × Bool :=
  initLoop p (p.length + 1) 0 [] [] false

/-- The item-building phase of LogFormatter::init, log.cpp lines 329-343:
type-0 segments become StringFormatItem, type-1 segments are looked up in
s_format_items; a failed lookup appends the error placeholder and sets the
error flag, which is sticky. -/
def buildItems : List Segment → Bool → List FormatItem × Bool
  | [], err => ([], err)
  | (str, fmt, ty) :: rest, err =>
    if ty = 0 then
      let r := buildItems rest err
      (FormatItem.StringItem str :: r.1, r.2)
    else
      match s_format_items str with
      | none =>
        let r := buildItems rest true
        (FormatItem.StringItem (errorText str) :: r.1, r.2)
      | some ctor =>
        let r := buildItems rest err
        (ctor fmt :: r.1, r.2)

/-- LogFormatter::init in full: tokenize then build the item chain,
returning (m_items, m_error). -/
def init (p : List Char) : List FormatItem × Bool :=
  buildItems (tokenizePattern p).1 (tokenizePattern p).2

/-- Decimal rendering of an unsigned field, as operator<< on an integer
does. -/
def natChars (n : Nat) : List Char := (Nat.repr n).toList

/-- Decimal rendering of a signed field, as operator<< on an integer
does. -/
def intChars (i : Int) : List Char := (toString i).toList

/-- FormatItem::format of each subclass, log.cpp lines 109-225. strf
models strftime composed with localtime_r (see the file header note);
logger is the formatter-call argument, which no subclass reads (the name
item reads the event's logger). -/
def FormatItem.render (strf : List Char → Nat → List Char)
    (logger : List Char) (level : Int) (event : LogEvent) :
    FormatItem → List Char
  | FormatItem.MessageItem => event.content
  | FormatItem.LevelItem => LogLevel.to_string level
  | FormatItem.ElapseItem => natChars event.elapse
  | FormatItem.NameItem => event.loggerName
  | FormatItem.ThreadidItem => natChars event.threadid
  | FormatItem.FiberidItem => natChars event.fiberid
  | FormatItem.ThreadnameItem => event.threadname
  | FormatItem.DateItem fmt => strf fmt event.time
  | FormatItem.FilenameItem => event.file
  | FormatItem.LineItem => intChars event.line
  | FormatItem.NewlineItem => ['\n']
  | FormatItem.StringItem s => s
  | FormatItem.TabItem => ['\t']

/-- The string-returning LogFormatter::format, log.cpp lines 94-100: a
fresh empty stringstream accumulates each item's output in order. -/
def LogFormatter.format (items : List FormatItem)
    (strf : List Char → Nat → List Char) (logger : List Char)
    (level : Int) (event : LogEvent) : List Char :=
  items.foldl (fun ss it => ss ++ FormatItem.render strf logger level event it) []

/-- The stream-writing LogFormatter::format overload, log.cpp lines
102-107: the caller-supplied stream, modelled by the text ofs already
written to it, accumulates each item's output in order. -/
def LogFormatter.formatTo (items : List FormatItem) (ofs : List Char)
    (strf : List Char → Nat → List Char) (logger : List Char)
    (level : Int) (event : LogEvent) : List Char :=
  items.foldl (fun os it => os ++ FormatItem.render strf logger level event it) ofs

/-- The default production pattern from the LogFormatter doc comment,
log.h line 198. -/
def defaultPattern : List Char :=
  "%d\x7b%Y-%m-%d %H:%M:%S\x7d%T%t%T%N%T%F%T[%p]%T[%c]%T%f:%l%T%m%n".toList

end lckl

namespace lckl

/-- C1: the claim says the text between the braces of a %d directive is
captured as the DateTime argument, so that compiling the pattern
made of %d followed by %Y in braces yields a DateTime item whose
sub-pattern is %Y. On the code this fails: the inner scan's first break
condition (log.cpp lines 255-256) compares the character against a
closing brace twice instead of against both brace kinds as its own
comment prescribes, so an opening brace terminates the name run; the
compiled chain is DateTime with the default sub-pattern, a literal
opening brace, and an unknown-directive placeholder embedding the
leftover fragment, with the error flag set. This theorem evaluates the
code at that failing input. -/
theorem c1_brace_argument_lost :
    init ("%d\x7b%Y\x7d".toList) =
      ([FormatItem.DateItem defaultDateFormat,
        FormatItem.StringItem ("\x7b".toList),
        FormatItem.StringItem (errorText ("Y\x7d".toList))], true) := by
  decide

/-- C2: the claim says the two-character escape of a doubled percent
always compiles to one literal percent with the scan advancing past both
characters. On the code this fails: the escape branch (log.cpp lines
241-244) appends the literal percent but advances only one position, so
the second percent is re-examined; on the pattern of four percents the
result is three literal percents followed by an empty-name
unknown-directive placeholder, with the error flag set, instead of two
literal percents. This theorem evaluates the code at that failing
input, including the rendered output. -/
theorem c2_escape_not_skipped :
    init ("%%%%".toList) =
      ([FormatItem.StringItem ("%%%".toList),
        FormatItem.StringItem (errorText [])], true) ∧
    LogFormatter.format (init ("%%%%".toList)).1 (fun f _ => f) [] 0
        ⟨[], 0, 0, 0, 0, 0, [], [], [], 0⟩ =
      ("%%%<<error_format %>>".toList) := by
  constructor
  · decide
  · decide

/-- C5: the claim says an unmatched opening brace makes the error flag
true and a single error-placeholder item replacing the broken tail is
appended. On the code the unmatched-brace branch (log.cpp lines 298-304,
pushing the pattern-error text) is unreachable, because the duplicated
closing-brace comparison in the break condition ends the name run at the
opening brace before brace-scanning mode is ever entered; compiling %d
followed by an unclosed brace and %Y instead yields DateTime with the
default sub-pattern, a literal opening brace, and an unknown-directive
placeholder for the name Y. Compilation does terminate and the error
flag is set, but through the unknown-name path, and the tail is not
replaced by a single placeholder. This theorem evaluates the code at
that failing input. -/
theorem c5_unterminated_brace_path :
    init ("%d\x7b%Y".toList) =
      ([FormatItem.DateItem defaultDateFormat,
        FormatItem.StringItem ("\x7b".toList),
        FormatItem.StringItem (errorText ("Y".toList))], true) ∧
    LogFormatter.format (init ("%d\x7b%Y".toList)).1 (fun f _ => f) [] 0
        ⟨[], 0, 0, 0, 0, 0, [], [], [], 0⟩ =
      ("%Y-%m-%d %H:%M:%S\x7b<<error_format %Y>>".toList) := by
  constructor
  · decide
  · decide

end lckl

namespace lckl

/-- The compiled item chain of the default pattern: because the inner
scan's break condition never lets brace-scanning mode start, the date
sub-pattern spills into the item stream as literals, a stray message item
and unknown-directive placeholders, while the part after the closing
brace compiles as intended. Established by evaluation. -/
theorem init_defaultPattern_items :
    (init defaultPattern).1 =
      [FormatItem.DateItem defaultDateFormat,
       FormatItem.StringItem ("\x7b".toList),
       FormatItem.StringItem (errorText ("Y".toList)),
       FormatItem.StringItem ("-".toList),
       FormatItem.MessageItem,
       FormatItem.StringItem ("-".toList),
       FormatItem.DateItem defaultDateFormat,
       FormatItem.StringItem (" ".toList),
       FormatItem.StringItem (errorText ("H".toList)),
       FormatItem.StringItem (":".toList),
       FormatItem.StringItem (errorText ("M".toList)),
       FormatItem.StringItem (":".toList),
       FormatItem.StringItem (errorText ("S\x7d".toList)),
       FormatItem.TabItem,
       FormatItem.ThreadidItem,
       FormatItem.TabItem,
       FormatItem.ThreadnameItem,
       FormatItem.TabItem,
       FormatItem.FiberidItem,
       FormatItem.TabItem,
       FormatItem.StringItem ("[".toList),
       FormatItem.LevelItem,
       FormatItem.StringItem ("]".toList),
       FormatItem.TabItem,
       FormatItem.StringItem ("[".toList),
       FormatItem.NameItem,
       FormatItem.StringItem ("]".toList),
       FormatItem.TabItem,
       FormatItem.FilenameItem,
       FormatItem.StringItem (":".toList),
       FormatItem.LineItem,
       FormatItem.TabItem,
       FormatItem.MessageItem,
       FormatItem.NewlineItem] := by
  decide

/-- C3: compiling the default pattern and rendering an event with time 0,
file a.cc, line 10, level INFO, logger name root and message hello
produces output whose tail places the bracketed level, the bracketed
logger name, the file and line joined by a colon, and the message in that
relative order, separated by single tab characters and ending in a
newline; everything else (including the fallout of the misparsed date
argument) lands in the prefix. The strftime model, the elapse, thread and
fiber ids, the thread name and the formatter-call logger argument are
arbitrary. -/
theorem c3_default_pattern_order (strf : List Char → Nat → List Char)
    (logger threadname : List Char) (elapse threadid fiberid : Nat) :
    ∃ pre : List Char,
      LogFormatter.format (init defaultPattern).1 strf logger 2
        ⟨"a.cc".toList, 10, elapse, threadid, fiberid, 0, threadname,
         "hello".toList, "root".toList, 2⟩ =
      pre ++ ("[INFO]\t[root]\ta.cc:10\thello\n".toList) := by
  have hlvl : LogLevel.to_string 2 = ("INFO".toList) := by decide
  have hline : intChars 10 = ("10".toList) := by decide
  have htail : ("[INFO]\t[root]\ta.cc:10\thello\n".toList) =
      ("[".toList) ++ (("INFO".toList) ++ (("]".toList) ++ (['\t'] ++
      (("[".toList) ++ (("root".toList) ++ (("]".toList) ++ (['\t'] ++
      (("a.cc".toList) ++ ((":".toList) ++ (("10".toList) ++ (['\t'] ++
      (("hello".toList) ++ ['\n'])))))))))))) := by decide
  refine ⟨strf defaultDateFormat 0 ++ ("\x7b".toList) ++
    errorText ("Y".toList) ++ ("-".toList) ++ ("hello".toList) ++
    ("-".toList) ++ strf defaultDateFormat 0 ++ (" ".toList) ++
    errorText ("H".toList) ++ (":".toList) ++ errorText ("M".toList) ++
    (":".toList) ++ errorText ("S\x7d".toList) ++ ['\t'] ++
    natChars threadid ++ ['\t'] ++ threadname ++ ['\t'] ++
    natChars fiberid ++ ['\t'], ?_⟩
  rw [init_defaultPattern_items, htail]
  simp [LogFormatter.format, FormatItem.render, hlvl, hline,
    List.append_assoc]

end lckl

namespace lckl

/-- Folding item renders from any accumulator equals the accumulator
followed by the fold from the empty accumulator; this is the one fact
relating the two format overloads. -/
theorem foldl_append_render (g : FormatItem → List Char) :
    ∀ (items : List FormatItem) (acc : List Char),
      items.foldl (fun os it => os ++ g it) acc =
        acc ++ items.foldl (fun os it => os ++ g it) [] := by
  intro items
  induction items with
  | nil => intro acc; simp
  | cons a rest ih =>
    intro acc
    simp only [List.foldl_cons]
    rw [ih (acc ++ g a), ih ([] ++ g a)]
    simp [List.append_assoc]

/-- Rendering a cons item chain renders the head then the rest. -/
theorem format_cons (x : FormatItem) (items : List FormatItem)
    (strf : List Char → Nat → List Char) (logger : List Char)
    (level : Int) (event : LogEvent) :
    LogFormatter.format (x :: items) strf logger level event =
      FormatItem.render strf logger level event x ++
        LogFormatter.format items strf logger level event := by
  unfold LogFormatter.format
  simp only [List.foldl_cons]
  rw [foldl_append_render]
  simp

/-- C9: for every compiled item chain and every previously written stream
content, the stream overload of LogFormatter::format writes exactly the
text that the string overload returns: both run the same fold over the
same items in the same order, the stream one merely starting from the
caller's stream instead of an empty one. -/
theorem c9_stream_string_agree (items : List FormatItem) (ofs : List Char)
    (strf : List Char → Nat → List Char) (logger : List Char)
    (level : Int) (event : LogEvent) :
    LogFormatter.formatTo items ofs strf logger level event =
      ofs ++ LogFormatter.format items strf logger level event := by
  unfold LogFormatter.formatTo LogFormatter.format
  exact foldl_append_render _ items ofs

/-- C8: compilation and rendering are deterministic: two formatters
constructed from equal pattern strings have equal compiled item chains,
equal error flags, and render equal output on equal inputs. -/
theorem c8_deterministic (p1 p2 : List Char) (h : p1 = p2)
    (strf : List Char → Nat → List Char) (logger : List Char)
    (level : Int) (event : LogEvent) :
    LogFormatter.format (init p1).1 strf logger level event =
      LogFormatter.format (init p2).1 strf logger level event ∧
    (init p1).2 = (init p2).2 := by
  subst h
  exact ⟨rfl, rfl⟩

/-- Witness for C8 at the concrete pattern %m and a concrete event. -/
theorem c8_deterministic_witness :
    LogFormatter.format (init ("%m".toList)).1 (fun f _ => f) [] 2
        ⟨"a.cc".toList, 10, 0, 0, 0, 0, [], "hello".toList, "root".toList, 2⟩ =
      LogFormatter.format (init ("%m".toList)).1 (fun f _ => f) [] 2
        ⟨"a.cc".toList, 10, 0, 0, 0, 0, [], "hello".toList, "root".toList, 2⟩ ∧
    (init ("%m".toList)).2 = (init ("%m".toList)).2 :=
  c8_deterministic ("%m".toList) ("%m".toList) rfl (fun f _ => f) [] 2
    ⟨"a.cc".toList, 10, 0, 0, 0, 0, [], "hello".toList, "root".toList, 2⟩

/-- C7 counterexample: the claim asserts case-insensitive parsing, so the
mixed-case spelling Info should map to INFO (ordinal 2); the code's
exact-match chain maps it to UNKNOWN instead. -/
theorem c7_mixed_case_counterexample :
    ¬ LogLevel.from_string ("Info".toList) = 2 := by
  decide

/-- C7 amended: from_string maps exactly the all-lowercase and the
all-uppercase spellings of the five level names to their levels; every
other string, mixed-case spellings included, maps to UNKNOWN (0) rather
than failing; and to_string of any value outside the declared ordinals
0..5 is the UNKNOWN text. -/
theorem c7_level_text_amended :
    (LogLevel.from_string ("debug".toList) = 1 ∧
     LogLevel.from_string ("DEBUG".toList) = 1 ∧
     LogLevel.from_string ("info".toList) = 2 ∧
     LogLevel.from_string ("INFO".toList) = 2 ∧
     LogLevel.from_string ("warn".toList) = 3 ∧
     LogLevel.from_string ("WARN".toList) = 3 ∧
     LogLevel.from_string ("error".toList) = 4 ∧
     LogLevel.from_string ("ERROR".toList) = 4 ∧
     LogLevel.from_string ("fatal".toList) = 5 ∧
     LogLevel.from_string ("FATAL".toList) = 5) ∧
    (∀ s : List Char,
      s ∉ [("debug".toList), ("info".toList), ("warn".toList),
           ("error".toList), ("fatal".toList), ("DEBUG".toList),
           ("INFO".toList), ("WARN".toList), ("ERROR".toList),
           ("FATAL".toList)] →
      LogLevel.from_string s = 0) ∧
    (∀ v : Int, v < 0 ∨ 5 < v → LogLevel.to_string v = ("UNKNOWN".toList)) := by
  refine ⟨by decide, ?_, ?_⟩
  · intro s hs
    simp only [List.mem_cons, List.mem_singleton, not_or] at hs
    obtain ⟨h1, h2, h3, h4, h5, h6, h7, h8, h9, h10, -⟩ := hs
    unfold LogLevel.from_string
    rw [if_neg h1, if_neg h2, if_neg h3, if_neg h4, if_neg h5, if_neg h6,
      if_neg h7, if_neg h8, if_neg h9, if_neg h10]
  · intro v hv
    have e0 : ¬ v = 0 := by omega
    have e1 : ¬ v = 1 := by omega
    have e2 : ¬ v = 2 := by omega
    have e3 : ¬ v = 3 := by omega
    have e4 : ¬ v = 4 := by omega
    have e5 : ¬ v = 5 := by omega
    simp [LogLevel.to_string, e0, e1, e2, e3, e4, e5]

/-- Witness for C7 amended: the mixed-case spelling Info maps to 0 and
to_string of 7 is the UNKNOWN text. -/
theorem c7_level_text_amended_witness :
    LogLevel.from_string ("Info".toList) = 0 ∧
    LogLevel.to_string 7 = ("UNKNOWN".toList) := by
  have h := c7_level_text_amended
  exact ⟨h.2.1 ("Info".toList) (by decide), h.2.2 7 (by norm_num)⟩

end lckl

namespace lckl

/-- On a pattern with no percent character the outer init loop only ever
takes its literal-accumulation branch: from any start state it appends the
rest of the pattern to the pending literal and flushes it as one type-0
segment, leaving the error flag untouched. -/
theorem initLoop_no_percent (p : List Char) (hp : ∀ c ∈ p, c ≠ '%') :
    ∀ (fuel i : Nat) (nstr : List Char) (vec : List Segment) (err : Bool),
      p.length ≤ fuel + i →
      initLoop p fuel i nstr vec err =
        (if nstr ++ p.drop i ≠ [] then vec ++ [(nstr ++ p.drop i, [], 0)] else vec,
         err) := by
  intro fuel
  induction fuel with
  | zero =>
    intro i nstr vec err hle
    have hd : p.drop i = [] := List.drop_eq_nil_of_le (by omega)
    simp [initLoop, hd]
  | succ fuel ih =>
    intro i nstr vec err hle
    by_cases hi : i < p.length
    · have hc : charAt p i = p[i] := List.getD_eq_getElem p _ hi
      have hne : charAt p i ≠ '%' := by
        rw [hc]
        exact hp _ (List.getElem_mem hi)
      have hdrop : p.drop i = charAt p i :: p.drop (i+1) := by
        rw [hc]
        exact List.drop_eq_getElem_cons hi
      simp only [initLoop]
      rw [if_pos hi, if_pos hne, ih (i+1) (nstr ++ [charAt p i]) vec err (by omega),
        hdrop]
      simp [List.append_assoc]
    · have hd : p.drop i = [] := List.drop_eq_nil_of_le (by omega)
      simp only [initLoop]
      rw [if_neg hi]
      simp [hd]

/-- C6: for every pattern containing no percent character, the compiled
formatter renders the pattern text verbatim on every input, and the error
flag is false. -/
theorem c6_no_percent_literal (p : List Char) (hp : ∀ c ∈ p, c ≠ '%')
    (strf : List Char → Nat → List Char) (logger : List Char)
    (level : Int) (event : LogEvent) :
    LogFormatter.format (init p).1 strf logger level event = p ∧
    (init p).2 = false := by
  by_cases hp0 : p = []
  · subst hp0
    have h0 : init [] = ([], false) := by decide
    rw [h0]
    exact ⟨rfl, rfl⟩
  · have htok := initLoop_no_percent p hp (p.length+1) 0 [] [] false (by omega)
    simp only [List.drop_zero, List.nil_append] at htok
    have htok2 : tokenizePattern p = ([(p, [], 0)], false) := by
      unfold tokenizePattern
      rw [htok, if_pos hp0]
    unfold init
    rw [htok2]
    simp only [buildItems]
    constructor
    · simp [LogFormatter.format, FormatItem.render]
    · rfl

/-- Witness for C6 at the concrete percent-free pattern hello. -/
theorem c6_no_percent_literal_witness :
    LogFormatter.format (init ("hello".toList)).1 (fun f _ => f) [] 2
        ⟨"a.cc".toList, 10, 0, 0, 0, 0, [], [], "root".toList, 2⟩ =
      ("hello".toList) ∧
    (init ("hello".toList)).2 = false :=
  c6_no_percent_literal ("hello".toList) (by decide) (fun f _ => f) [] 2
    ⟨"a.cc".toList, 10, 0, 0, 0, 0, [], [], "root".toList, 2⟩

end lckl

namespace lckl

/-- Once the error flag is true it stays true through the item-building
phase, mirroring that m_error is only ever assigned true. -/
theorem buildItems_true_sticky : ∀ vec : List Segment,
    (buildItems vec true).2 = true := by
  intro vec
  induction vec with
  | nil => rfl
  | cons t rest ih =>
    obtain ⟨s, f, ty⟩ := t
    simp only [buildItems]
    split
    · exact ih
    · split
      · exact ih
      · exact ih

/-- If the segment list contains a directive segment whose name fails the
table lookup, the built chain contains the corresponding placeholder item
and the final error flag is true, from any starting flag. -/
theorem buildItems_unknown_mem :
    ∀ (vec : List Segment) (err : Bool) (s f : List Char),
      (s, f, 1) ∈ vec → (s_format_items s).isNone = true →
      FormatItem.StringItem (errorText s) ∈ (buildItems vec err).1 ∧
      (buildItems vec err).2 = true := by
  intro vec
  induction vec with
  | nil =>
    intro err s f h _
    exact absurd h (List.not_mem_nil _)
  | cons t rest ih =>
    intro err s f hmem hunk
    rcases List.mem_cons.mp hmem with heq | htail
    · subst heq
      have hnone : s_format_items s = none := Option.isNone_iff_eq_none.mp hunk
      simp only [buildItems, hnone]
      exact ⟨List.mem_cons_self _ _, buildItems_true_sticky rest⟩
    · obtain ⟨s', f', ty'⟩ := t
      simp only [buildItems]
      by_cases h0 : ty' = 0
      · rw [if_pos h0]
        have h := ih err s f htail hunk
        exact ⟨List.mem_cons_of_mem _ h.1, h.2⟩
      · rw [if_neg h0]
        cases hs : s_format_items s' with
        | none =>
          have h := ih true s f htail hunk
          exact ⟨List.mem_cons_of_mem _ h.1, h.2⟩
        | some ctor =>
          have h := ih err s f htail hunk
          exact ⟨List.mem_cons_of_mem _ h.1, h.2⟩

/-- The output of a rendered item chain splits around the output of any
member item. -/
theorem format_mem_split :
    ∀ (items : List FormatItem) (x : FormatItem)
      (strf : List Char → Nat → List Char) (logger : List Char)
      (level : Int) (event : LogEvent), x ∈ items →
      ∃ pre post, LogFormatter.format items strf logger level event =
        pre ++ FormatItem.render strf logger level event x ++ post := by
  intro items
  induction items with
  | nil =>
    intro x _ _ _ _ h
    exact absurd h (List.not_mem_nil _)
  | cons a rest ih =>
    intro x strf logger level event hmem
    rcases List.mem_cons.mp hmem with heq | htail
    · subst heq
      refine ⟨[], LogFormatter.format rest strf logger level event, ?_⟩
      rw [format_cons]
      simp
    · obtain ⟨pre, post, hsplit⟩ := ih x strf logger level event htail
      refine ⟨FormatItem.render strf logger level event a ++ pre, post, ?_⟩
      rw [format_cons, hsplit]
      simp [List.append_assoc]

/-- C4: for every pattern whose tokenization contains a directive segment
whose name is not in the fixed table, compilation completes with the
error flag set, the chain contains a placeholder item whose text embeds
the unknown name, and every render still produces a complete non-empty
output containing that name. -/
theorem c4_unknown_directive (p s f : List Char)
    (hmem : (s, f, 1) ∈ (tokenizePattern p).1)
    (hunk : (s_format_items s).isNone = true) :
    (init p).2 = true ∧
    FormatItem.StringItem (errorText s) ∈ (init p).1 ∧
    ∀ (strf : List Char → Nat → List Char) (logger : List Char)
      (level : Int) (event : LogEvent),
      (∃ pre post, LogFormatter.format (init p).1 strf logger level event =
        pre ++ s ++ post) ∧
      LogFormatter.format (init p).1 strf logger level event ≠ [] := by
  unfold init
  have h := buildItems_unknown_mem (tokenizePattern p).1 (tokenizePattern p).2
    s f hmem hunk
  refine ⟨h.2, h.1, ?_⟩
  intro strf logger level event
  obtain ⟨pre, post, hsplit⟩ :=
    format_mem_split (buildItems (tokenizePattern p).1 (tokenizePattern p).2).1
      _ strf logger level event h.1
  have hr : FormatItem.render strf logger level event
      (FormatItem.StringItem (errorText s)) = errorText s := rfl
  rw [hr] at hsplit
  have hhead : ("<<error_format %".toList) ≠ ([] : List Char) := by decide
  constructor
  · refine ⟨pre ++ ("<<error_format %".toList), (">>".toList) ++ post, ?_⟩
    rw [hsplit]
    simp [errorText, List.append_assoc]
  · rw [hsplit]
    simp [errorText, hhead]

/-- Witness for C4 at the concrete unknown-directive pattern %z. -/
theorem c4_unknown_directive_witness :
    (init ("%z".toList)).2 = true ∧
    FormatItem.StringItem (errorText ("z".toList)) ∈ (init ("%z".toList)).1 ∧
    ((∃ pre post,
        LogFormatter.format (init ("%z".toList)).1 (fun f _ => f) [] 2
          ⟨"a.cc".toList, 10, 0, 0, 0, 0, [], [], "root".toList, 2⟩ =
          pre ++ ("z".toList) ++ post) ∧
      LogFormatter.format (init ("%z".toList)).1 (fun f _ => f) [] 2
        ⟨"a.cc".toList, 10, 0, 0, 0, 0, [], [], "root".toList, 2⟩ ≠ []) := by
  have h := c4_unknown_directive ("%z".toList) ("z".toList) [] (by decide) (by decide)
  exact ⟨h.1, h.2.1, h.2.2 (fun f _ => f) [] 2
    ⟨"a.cc".toList, 10, 0, 0, 0, 0, [], [], "root".toList, 2⟩⟩

end lckl

namespace lckl

/-- Once the index has reached the end of the pattern, the outer init loop
just flushes the pending literal, whatever fuel remains. -/
theorem initLoop_done (p : List Char) (fuel i : Nat) (nstr : List Char)
    (vec : List Segment) (err : Bool) (h : p.length ≤ i) :
    initLoop p fuel i nstr vec err =
      (if nstr ≠ [] then vec ++ [(nstr, [], 0)] else vec, err) := by
  cases fuel with
  | zero => simp only [initLoop]
  | succ fuel =>
    simp only [initLoop]
    rw [if_neg (by omega)]

/-- The inner scan started in status 0 stays in status 0 (brace-scanning
mode is unreachable: the duplicated closing-brace comparison in the break
condition catches an opening brace first) and, when some position at or
after the start holds a percent character, stops at or before it. -/
theorem scanLoop_percent_stop (p : List Char) (i last : Nat)
    (hlt : last < p.length) (hlast : charAt p last = '%') :
    ∀ (fuel n fmtBegin : Nat) (str fmt : List Char), n ≤ last →
      (scanLoop p i fuel n 0 fmtBegin str fmt).2.2.1 = 0 ∧
      n ≤ (scanLoop p i fuel n 0 fmtBegin str fmt).2.2.2 ∧
      (scanLoop p i fuel n 0 fmtBegin str fmt).2.2.2 ≤ last := by
  intro fuel
  induction fuel with
  | zero =>
    intro n fb str fmt hn
    simp [scanLoop, hn]
  | succ fuel ih =>
    intro n fb str fmt hn
    have hnp : n < p.length := lt_of_le_of_lt hn hlt
    simp only [scanLoop]
    rw [if_pos hnp]
    simp only [true_and]
    by_cases h1 : ¬ isalpha (charAt p n) ∧
        charAt p n ≠ '\x7d' ∧ charAt p n ≠ '\x7d'
    · rw [if_pos h1]
      simp [hn]
    · rw [if_neg h1]
      have h2 : ¬ (charAt p n = '\x7b') := by
        intro hb
        apply h1
        refine ⟨?_, ?_, ?_⟩ <;> rw [hb] <;> decide
      rw [if_neg h2]
      have h3 : ¬ ((0 : Nat) = 1 ∧ charAt p n = '\x7d') := by
        intro hb
        exact absurd hb.1 (by decide)
      rw [if_neg h3]
      have hne : n ≠ last := by
        intro he
        apply h1
        rw [he, hlast]
        exact ⟨by decide, by decide, by decide⟩
      have h := ih (n+1) fb (if n+1 = p.length ∧ str = [] then p.drop (i+1) else str)
        fmt (by omega)
      exact ⟨h.1, le_trans (Nat.le_succ n) h.2.1, h.2.2⟩

/-- On a pattern whose final character is a percent, the outer init loop
from any position pushes an empty-name directive segment last: the scan
lands exactly on the final percent, which opens a directive whose inner
scan finds end-of-string at once. The error flag is untouched during this
phase. -/
theorem initLoop_trailing_percent (p : List Char) (last : Nat)
    (hlt : last < p.length) (hlen : p.length = last + 1)
    (hlast : charAt p last = '%') :
    ∀ (fuel i : Nat) (nstr : List Char) (vec : List Segment) (err : Bool),
      i ≤ last → last - i < fuel →
      ∃ w, initLoop p fuel i nstr vec err =
        (w ++ [(([] : List Char), ([] : List Char), 1)], err) := by
  intro fuel
  induction fuel with
  | zero =>
    intro i nstr vec err hi hfuel
    omega
  | succ fuel ih =>
    intro i nstr vec err hi hfuel
    have hip : i < p.length := by omega
    simp only [initLoop]
    rw [if_pos hip]
    by_cases hci : charAt p i ≠ '%'
    · rw [if_pos hci]
      have hine : i ≠ last := by
        intro h
        rw [h, hlast] at hci
        exact hci rfl
      exact ih (i+1) (nstr ++ [charAt p i]) vec err (by omega) (by omega)
    · rw [if_neg hci]
      push_neg at hci
      by_cases hesc : i + 1 < p.length ∧ charAt p (i+1) = '%'
      · rw [if_pos hesc]
        exact ih (i+1) (nstr ++ ['%']) vec err (by omega) (by omega)
      · rw [if_neg hesc]
        by_cases hil : i = last
        · have hip1 : ¬ (i + 1 < p.length) := by omega
          have hscan : scanLoop p i (p.length+1) (i+1) 0 0 [] [] =
              ([], [], 0, i+1) := by
            simp only [scanLoop]
            rw [if_neg hip1]
          rw [hscan]
          dsimp only
          rw [if_pos rfl]
          have hnext : (i + 1 - 1) + 1 = i + 1 := by omega
          rw [hnext]
          rw [initLoop_done p fuel (i+1)
            [] ((if nstr ≠ [] then vec ++ [(nstr, [], 0)] else vec) ++ [([], [], 1)])
            err (by omega)]
          refine ⟨if nstr ≠ [] then vec ++ [(nstr, [], 0)] else vec, ?_⟩
          simp
        · have hscan := scanLoop_percent_stop p i last hlt hlast (p.length+1)
            (i+1) 0 [] [] (by omega)
          obtain ⟨hst, hge, hle'⟩ := hscan
          rw [if_pos hst]
          have hnext : ((scanLoop p i (p.length+1) (i+1) 0 0 [] []).2.2.2 - 1) + 1 =
              (scanLoop p i (p.length+1) (i+1) 0 0 [] []).2.2.2 := by omega
          rw [hnext]
          exact ih (scanLoop p i (p.length+1) (i+1) 0 0 [] []).2.2.2 []
            _ err hle' (by omega)

/-- Building items from a segment list ending in an empty-name directive
appends the empty-name placeholder last and leaves the error flag true,
since the empty name fails the table lookup. -/
theorem buildItems_last_empty_dir :
    ∀ (w : List Segment) (err : Bool),
      (buildItems (w ++ [(([] : List Char), ([] : List Char), 1)]) err).2 = true ∧
      ∃ w', (buildItems (w ++ [(([] : List Char), ([] : List Char), 1)]) err).1 =
        w' ++ [FormatItem.StringItem (errorText [])] := by
  intro w
  induction w with
  | nil =>
    intro err
    exact ⟨rfl, [], rfl⟩
  | cons t rest ih =>
    intro err
    obtain ⟨s', f', ty'⟩ := t
    simp only [List.cons_append, buildItems, List.append_eq]
    by_cases h0 : ty' = 0
    · rw [if_pos h0]
      obtain ⟨hflag, w', hw'⟩ := ih err
      exact ⟨hflag, FormatItem.StringItem s' :: w',
        by simp only [List.append_eq]; rw [hw', List.cons_append]⟩
    · rw [if_neg h0]
      cases hs : s_format_items s' with
      | none =>
        obtain ⟨hflag, w', hw'⟩ := ih true
        exact ⟨hflag, FormatItem.StringItem (errorText s') :: w',
          by simp only [List.append_eq]; rw [hw', List.cons_append]⟩
      | some ctor =>
        obtain ⟨hflag, w', hw'⟩ := ih err
        exact ⟨hflag, ctor f' :: w',
          by simp only [List.append_eq]; rw [hw', List.cons_append]⟩

/-- C10: for every pattern ending in a single percent not preceded by
another percent, compilation terminates with the trailing percent opening
a directive with an empty name; the empty name fails the table lookup, the
empty-name error placeholder is appended as the last item and the error
flag is set. -/
theorem c10_trailing_percent (q : List Char) (hq : q.getLast? ≠ some '%') :
    (s_format_items []).isNone = true ∧
    (init (q ++ ['%'])).2 = true ∧
    ∃ w, (init (q ++ ['%'])).1 = w ++ [FormatItem.StringItem (errorText [])] := by
  have hlen : (q ++ ['%']).length = q.length + 1 := by simp
  have hlt : q.length < (q ++ ['%']).length := by omega
  have hlast : charAt (q ++ ['%']) q.length = '%' := by
    unfold charAt
    rw [List.getD_eq_getElem]
    · simp
    · omega
  obtain ⟨w, hw⟩ := initLoop_trailing_percent (q ++ ['%']) q.length hlt hlen hlast
    ((q ++ ['%']).length + 1) 0 [] [] false (by omega) (by omega)
  have htok : tokenizePattern (q ++ ['%']) = (w ++ [([], [], 1)], false) := hw
  obtain ⟨hflag, w', hw'⟩ := buildItems_last_empty_dir w false
  refine ⟨rfl, ?_, w', ?_⟩
  · unfold init
    rw [htok]
    exact hflag
  · unfold init
    rw [htok]
    exact hw'

/-- Witness for C10 at the concrete pattern abc followed by a percent. -/
theorem c10_trailing_percent_witness :
    (s_format_items []).isNone = true ∧
    (init ("abc%".toList)).2 = true ∧
    ∃ w, (init ("abc%".toList)).1 = w ++ [FormatItem.StringItem (errorText [])] := by
  have h := c10_trailing_percent ("abc".toList) (by decide)
  exact h

end lckl
